import Mathlib

/-!
Shallow embedding of the reconciliation core of `olsync.py`
(Overleaf Two-Way Sync Tool).

The embedded functions mirror, line for line, the Python source:
  * `classifyName` / `classifyAll`    — the classification loop of
    `sync_func` (olsync.py lines 259–272);
  * `classifyNameE` / `classifyAllE`  — the same loop with fallible
    comparator predicates, modelling Python exception propagation;
  * `classifyDeleted`                 — the deletion prompt loop
    (lines 274–285);
  * `runGroup` / `execPlan`           — the four execution loops
    (lines 287–329), including the exact user-facing error strings;
  * `deletedFilesRun1` / `deletedFilesRun2` — the `deleted_files`
    list comprehensions of `main` (lines 97 and 112);
  * `mainRuns`                        — the two sequential `sync_func`
    invocations of `main` (lines 94–123);
  * `olignore_keep_list`              — the local enumeration filter
    (lines 370–391);
  * `from_newer_remote` / `from_newer_local` — the timestamp
    comparators injected by `main` (lines 104–105 and 119–120).
-/

/-- The per-file sync decisions assigned by the classification loop. -/
inductive Decision where
  | new
  | update
  | synced
  | skipped
deriving DecidableEq, Repr

/-- A comparator-predicate invocation, recorded in evaluation order.
`pconfirm` records the interactive `click.confirm` call. -/
inductive PredCall where
  | pexists (name : String)
  | pequal (name : String)
  | pnewer (name : String)
  | pconfirm (name : String)
deriving DecidableEq, Repr

/-- Classification of one file name, olsync.py lines 260–272:

    if from_exists_in_to(name):
        if not from_equal_to_to(name):
            if not from_newer_than_to(name) and not click.confirm(...):
                not_sync_list.append(name); continue
            update_list.append(name)
        else:
            synced_list.append(name)
    else:
        newly_add_list.append(name)

The nested `if` on `w`/`c` mirrors Python's short-circuit of
`not from_newer_than_to(name) and not click.confirm(...)`.  The second
component records every predicate (and confirm) call, in order. -/
def classifyName (e q w c : String → Bool) (name : String) :
    Decision × List PredCall :=
  if e name then
    if !(q name) then
      if !(w name) then
        if !(c name) then
          (.skipped, [.pexists name, .pequal name, .pnewer name, .pconfirm name])
        else
          (.update, [.pexists name, .pequal name, .pnewer name, .pconfirm name])
      else
        (.update, [.pexists name, .pequal name, .pnewer name])
    else
      (.synced, [.pexists name, .pequal name])
  else
    (.new, [.pexists name])

/-- The four classification buckets accumulated by the loop of
`sync_func` (`newly_add_list`, `update_list`, `not_sync_list`,
`synced_list`). -/
structure ClassLists where
  newly_add_list : List String
  update_list : List String
  not_sync_list : List String
  synced_list : List String
deriving DecidableEq, Repr

def ClassLists.empty : ClassLists := ⟨[], [], [], []⟩

/-- Append `name` to the bucket selected by its decision, exactly as the
four `append` calls of the loop body do. -/
def ClassLists.insert (d : Decision) (name : String) (ls : ClassLists) :
    ClassLists :=
  match d with
  | .new => { ls with newly_add_list := name :: ls.newly_add_list }
  | .update => { ls with update_list := name :: ls.update_list }
  | .skipped => { ls with not_sync_list := name :: ls.not_sync_list }
  | .synced => { ls with synced_list := name :: ls.synced_list }

/-- The classification loop `for name in files_from: ...`
(olsync.py lines 259–272): classifies every name of the source
enumeration, keeping insertion order within each bucket. -/
def classifyAll (e q w c : String → Bool) : List String → ClassLists
  | [] => ClassLists.empty
  | n :: rest =>
    ClassLists.insert (classifyName e q w c n).1 n (classifyAll e q w c rest)

/-- The decision order as the specification words it (§4.3):
not in destination → NEW; else content-equal → SYNCED; else
source-newer → UPDATE; else human confirm decides UPDATE/SKIPPED. -/
def specDecision (e q w c : String → Bool) (name : String) : Decision :=
  if !(e name) then .new
  else if q name then .synced
  else if w name then .update
  else if c name then .update
  else .skipped

/-- Classification of one name when the comparator predicates may raise
(olsync.py lines 260–272 under Python exception semantics: the loop body
has no `try`, so a raising predicate propagates out of `sync_func`).
`Except.error err` models the propagating exception `err`. -/
def classifyNameE {ε : Type} (e q w : String → Except ε Bool)
    (c : String → Bool) (name : String) : Except ε Decision :=
  match e name with
  | .error err => .error err
  | .ok true =>
    match q name with
    | .error err => .error err
    | .ok true => .ok .synced
    | .ok false =>
      match w name with
      | .error err => .error err
      | .ok true => .ok .update
      | .ok false => if c name then .ok .update else .ok .skipped
  | .ok false => .ok .new

/-- The classification loop with fallible predicates: the first raising
predicate call aborts the whole loop (and with it the direction-run); no
partial bucket lists survive the exception. -/
def classifyAllE {ε : Type} (e q w : String → Except ε Bool)
    (c : String → Bool) : List String → Except ε ClassLists
  | [] => .ok ClassLists.empty
  | n :: rest =>
    match classifyNameE e q w c n with
    | .error err => .error err
    | .ok d =>
      match classifyAllE e q w c rest with
      | .error err => .error err
      | .ok ls => .ok (ClassLists.insert d n ls)

/-- The answer to the three-way deletion prompt of olsync.py lines
275–279: [d]elete, [r]estore or [i]gnore. -/
inductive DelChoice where
  | d
  | r
  | i
deriving DecidableEq, Repr

/-- The deletion prompt loop `for name in deleted_files: ...`
(olsync.py lines 274–285): one three-way prompt per name, filling
`delete_list`, `restore_list`, `not_restored_list` in insertion order. -/
def classifyDeleted (choice : String → DelChoice) :
    List String → List String × List String × List String
  | [] => ([], [], [])
  | n :: rest =>
    let (dl, rl, il) := classifyDeleted choice rest
    match choice n with
    | .d => (n :: dl, rl, il)
    | .r => (dl, n :: rl, il)
    | .i => (dl, rl, n :: il)

/-- The `deleted_files` argument of the first (remote→local) `sync_func`
call, olsync.py line 97:

    [f for f in olignore_keep_list(olignore_path)
       if f not in zip_file.namelist() and not sync]

`sync` is `not (local or remote)`, i.e. true exactly when the invocation
is bidirectional. -/
def deletedFilesRun1 (keepList namelist : List String) (sync : Bool) :
    List String :=
  keepList.filter (fun f => !namelist.contains f && !sync)

/-- The `deleted_files` argument of the second (local→remote)
`sync_func` call, olsync.py line 112:

    [f for f in zip_file.namelist()
       if f not in olignore_keep_list(olignore_path) and not sync] -/
def deletedFilesRun2 (keepList namelist : List String) (sync : Bool) :
    List String :=
  namelist.filter (fun f => !keepList.contains f && !sync)

/-- Which of the two direction-runs of `main` actually started. -/
inductive RunTag where
  | run1
  | run2
deriving DecidableEq, Repr

/-- The orchestration of `main` (olsync.py lines 92–123): `sync = not
(local or remote)`; the remote→local `sync_func` call is guarded by
`remote or sync`, the local→remote call by `local or sync`, and they run
sequentially with no `try` in between, so a `ClickException` raised by
the first call propagates and the second call never starts.  Each run's
outcome is passed in (`Except.error msg` models the raised
`ClickException msg`); the result is the list of runs that started and
the propagated error, if any. -/
def mainRuns (localFlag remoteFlag : Bool)
    (run1 run2 : Except String Unit) : List RunTag × Option String :=
  let sync := !(localFlag || remoteFlag)
  let (t1, e1) :=
    if remoteFlag || sync then
      match run1 with
      | .ok _ => ([RunTag.run1], (none : Option String))
      | .error m => ([RunTag.run1], some m)
    else ([], none)
  match e1 with
  | some m => (t1, some m)
  | none =>
    if localFlag || sync then
      match run2 with
      | .ok _ => (t1 ++ [RunTag.run2], none)
      | .error m => (t1 ++ [RunTag.run2], some m)
    else (t1, none)

/-- An executed side effect: which capability ran on which name.
`createAtTo` is `create_file_at_to`, `createAtFrom` is
`create_file_at_from` (the RESTORE path), `deleteAtTo` is
`delete_file_at_to`. -/
inductive Op where
  | createAtTo (name : String)
  | createAtFrom (name : String)
  | deleteAtTo (name : String)
deriving DecidableEq, Repr

/-- The `ClickException` message of the `except` arms at olsync.py lines
296, 307 and 329 (note line 329, the DELETE loop, reuses this very
"creating new file(s)" text). -/
def errCreatingMsg (side : String) : String :=
  "\n[ERROR] An error occurred while creating new file(s) on [" ++ side ++ "]"

/-- The `ClickException` message of the `except` arm at olsync.py
line 318. -/
def errUpdatingMsg (side : String) : String :=
  "\n[ERROR] An error occurred while updating file(s) on [" ++ side ++ "]"

/-- One execution loop of `sync_func` (such as lines 289–296): apply the
capability to each name in order; on the first raising call, raise a
`ClickException` carrying `msg`.  Returns the ops that actually ran and
the raised message, if any.  Ops performed before the failure are kept:
nothing is rolled back. -/
def runGroup {ε : Type} (cap : String → Except ε Unit) (mk : String → Op)
    (msg : String) : List String → List Op × Option String
  | [] => ([], none)
  | n :: rest =>
    match cap n with
    | .ok _ =>
      let (t, r) := runGroup cap mk msg rest
      (mk n :: t, r)
    | .error _ => ([], some msg)

/-- The execution phase of `sync_func` (olsync.py lines 287–329): the
four loops in source order — `newly_add_list` via `create_file_at_to`,
`restore_list` via `create_file_at_from`, `update_list` via
`create_file_at_to`, `delete_list` via `delete_file_at_to` — each
wrapped in the `try/except` that raises the group's `ClickException`,
which aborts everything after it.  The deletion lists are passed
alongside the classification buckets, as in the source. -/
def execPlan {ε : Type} (create_file_at_to delete_file_at_to
      create_file_at_from : String → Except ε Unit)
    (from_name to_name : String) (ls : ClassLists)
    (delete_list restore_list : List String) : List Op × Option String :=
  let (t1, r1) := runGroup create_file_at_to Op.createAtTo
    (errCreatingMsg to_name) ls.newly_add_list
  match r1 with
  | some m => (t1, some m)
  | none =>
    let (t2, r2) := runGroup create_file_at_from Op.createAtFrom
      (errCreatingMsg from_name) restore_list
    match r2 with
    | some m => (t1 ++ t2, some m)
    | none =>
      let (t3, r3) := runGroup create_file_at_to Op.createAtTo
        (errUpdatingMsg to_name) ls.update_list
      match r3 with
      | some m => (t1 ++ t2 ++ t3, some m)
      | none =>
        let (t4, r4) := runGroup delete_file_at_to Op.deleteAtTo
          (errCreatingMsg to_name) delete_list
        (t1 ++ t2 ++ t3 ++ t4, r4)

/-- One entry of the recursive listing of the sync directory: its
relative path, kept as the list of its components, and whether it is a
directory (`os.path.isdir`). -/
structure Entry where
  comps : List String
  isDir : Bool
deriving DecidableEq, Repr

/-- The rendering `Path(item).as_posix()` of an entry: its components joined by
forward slashes (on the reference platform the glob output is already
in this form). -/
def renderPath (e : Entry) : String := String.intercalate "/" e.comps

/-- A path component is hidden when its first character is a dot —
the components that glob's default (non-hidden) matching refuses to
match. -/
def hiddenComp (s : String) : Bool :=
  match s.data with
  | [] => false
  | ch :: _ => ch == '.'

/-- Models `glob.glob('**', recursive=True)` (olsync.py line 376) under
its default `include_hidden=False`: of the full recursive listing of
the sync directory, every entry any of whose path components begins
with a dot — a hidden file, or anything below a hidden directory — is
omitted; the source comments this line with "get list of files
recursively (ignore .* files)". -/
def pythonGlobStarStar (allEntries : List Entry) : List Entry :=
  allEntries.filter (fun e => !e.comps.any (fun s => hiddenComp s))

/-- The state of the `.olignore` file as `olignore_keep_list` observes
it: absent (`os.path.isfile` false), present but unreadable (`open`
raises an OSError), or readable with its list of pattern lines. -/
inductive RulesSource where
  | missing
  | unreadable
  | readable (patterns : List String)

/-- olsync.py line 390:
`keep_list = [Path(item).as_posix() for item in keep_list if not
os.path.isdir(item)]`. -/
def keepPostprocess (keep_list : List Entry) : List String :=
  (keep_list.filter (fun e => !e.isDir)).map renderPath

/-- The function `olignore_keep_list` (olsync.py lines 370–391) over a given
enumeration `files` (the glob listing computed at line 376): if the
`.olignore` file is absent, keep everything; if it exists but `open`
raises, the exception propagates (`Except.error ()`); otherwise drop
every path matched by any pattern line, where `matchp f pat` models
`fnmatch.fnmatch(f, pat)` and is kept abstract.  Either way the kept
list is post-processed by line 390. -/
def olignore_keep_list (files : List Entry) (src : RulesSource)
    (matchp : String → String → Bool) : Except Unit (List String) :=
  match src with
  | .missing => .ok (keepPostprocess files)
  | .unreadable => .error ()
  | .readable ignore_pattern =>
    .ok (keepPostprocess (files.filter
      (fun f => !(ignore_pattern.any (fun pat => matchp (renderPath f) pat)))))

/-- The `from_newer_than_to` capability of the remote→local run
(olsync.py lines 104–105):
`dateutil.parser.isoparse(project["lastUpdated"]).timestamp() >
os.path.getmtime(name)`.  Timestamps are modelled as exact epoch-second
rationals. -/
def from_newer_remote (lastUpdated mtime : ℚ) : Bool :=
  decide (lastUpdated > mtime)

/-- The `from_newer_than_to` capability of the local→remote run
(olsync.py lines 119–120):
`os.path.getmtime(name) > dateutil.parser.isoparse(...).timestamp()`. -/
def from_newer_local (mtime lastUpdated : ℚ) : Bool :=
  decide (mtime > lastUpdated)

theorem classifyName_fst (e q w c : String → Bool) (n : String) :
    (classifyName e q w c n).1 = specDecision e q w c n := by
  unfold classifyName specDecision
  cases he : e n <;> cases hq : q n <;> cases hw : w n <;> cases hc : c n <;>
    simp [he, hq, hw, hc]

theorem classifyAll_newly (e q w c : String → Bool) (ns : List String) :
    (classifyAll e q w c ns).newly_add_list =
      ns.filter (fun n => specDecision e q w c n == .new) := by
  induction ns with
  | nil => rfl
  | cons n rest ih =>
    simp only [classifyAll, List.filter, ← classifyName_fst]
    cases hd : (classifyName e q w c n).1 <;>
      simp [ClassLists.insert, ih, hd, classifyName_fst] <;> rfl

theorem classifyAll_update (e q w c : String → Bool) (ns : List String) :
    (classifyAll e q w c ns).update_list =
      ns.filter (fun n => specDecision e q w c n == .update) := by
  induction ns with
  | nil => rfl
  | cons n rest ih =>
    simp only [classifyAll, List.filter, ← classifyName_fst]
    cases hd : (classifyName e q w c n).1 <;>
      simp [ClassLists.insert, ih, hd, classifyName_fst] <;> rfl

theorem classifyAll_notsync (e q w c : String → Bool) (ns : List String) :
    (classifyAll e q w c ns).not_sync_list =
      ns.filter (fun n => specDecision e q w c n == .skipped) := by
  induction ns with
  | nil => rfl
  | cons n rest ih =>
    simp only [classifyAll, List.filter, ← classifyName_fst]
    cases hd : (classifyName e q w c n).1 <;>
      simp [ClassLists.insert, ih, hd, classifyName_fst] <;> rfl

theorem classifyAll_synced (e q w c : String → Bool) (ns : List String) :
    (classifyAll e q w c ns).synced_list =
      ns.filter (fun n => specDecision e q w c n == .synced) := by
  induction ns with
  | nil => rfl
  | cons n rest ih =>
    simp only [classifyAll, List.filter, ← classifyName_fst]
    cases hd : (classifyName e q w c n).1 <;>
      simp [ClassLists.insert, ih, hd, classifyName_fst] <;> rfl

/-- Claim C1: For every FileName in the source enumeration, the engine
assigns its decision by the fixed order: not present in the destination
→ NEW; else `content_equal` → SYNCED; else `source_is_newer` → UPDATE;
else the human confirm prompt decides, UPDATE on accept and SKIPPED on
decline.  Stated as: each bucket of the classification loop holds
exactly the names of the enumeration whose spec-ordered decision is
that bucket's decision, in enumeration order. -/
theorem c1_classification_order (e q w c : String → Bool) (ns : List String) :
    (∀ n, (classifyName e q w c n).1 = specDecision e q w c n) ∧
    (classifyAll e q w c ns).newly_add_list =
      ns.filter (fun n => specDecision e q w c n == .new) ∧
    (classifyAll e q w c ns).synced_list =
      ns.filter (fun n => specDecision e q w c n == .synced) ∧
    (classifyAll e q w c ns).update_list =
      ns.filter (fun n => specDecision e q w c n == .update) ∧
    (classifyAll e q w c ns).not_sync_list =
      ns.filter (fun n => specDecision e q w c n == .skipped) :=
  ⟨fun n => classifyName_fst e q w c n,
   classifyAll_newly e q w c ns,
   classifyAll_synced e q w c ns,
   classifyAll_update e q w c ns,
   classifyAll_notsync e q w c ns⟩

/-- Claim C7: During classification of one name, each comparator predicate
is invoked at most once, and when the name exists in the destination and
`content_equal` holds, `source_is_newer` is never evaluated (the call
trace is exactly the existence and equality checks). -/
theorem c7_predicate_budget (e q w c : String → Bool) (n : String) :
    ((classifyName e q w c n).2.count (.pexists n) ≤ 1 ∧
     (classifyName e q w c n).2.count (.pequal n) ≤ 1 ∧
     (classifyName e q w c n).2.count (.pnewer n) ≤ 1) ∧
    (e n = true → q n = true →
      (classifyName e q w c n).2 = [.pexists n, .pequal n]) := by
  constructor
  · unfold classifyName
    cases he : e n <;> cases hq : q n <;> cases hw : w n <;> cases hc : c n <;>
      simp [List.count_cons, List.count_nil]
  · intro he hq
    unfold classifyName
    simp [he, hq]

theorem c7_predicate_budget_witness :
    (classifyName (fun _ => true) (fun _ => true) (fun _ => false)
        (fun _ => false) "a.tex").2 = [.pexists "a.tex", .pequal "a.tex"] :=
  (c7_predicate_budget (fun _ => true) (fun _ => true) (fun _ => false)
      (fun _ => false) "a.tex").2 rfl rfl

/-- Claim C3, counterexample: Two files; the existence predicate raises on
the first.  The engine does not isolate the failure to that file: the
whole classification aborts with the propagated exception, so the second
file is never classified and no per-file failure report exists —
refuting the claim that the run is not aborted. -/
theorem c3_counterexample :
    classifyAllE
      (fun n => if n = "a.tex" then .error "IOError" else .ok true)
      (fun _ => .ok true) (fun _ => .ok true) (fun _ => true)
      ["a.tex", "b.tex"] = .error "IOError" := rfl

/-- Claim C3, amended: A raising comparator predicate aborts the entire
direction-run's classification: if the names before the failing one all
classify successfully and a predicate raises `err` on name `n`, the loop
over the whole enumeration returns exactly the propagated exception
`err` — no per-file isolation, no classification of the remaining
names, no failure report. -/
theorem c3_exception_aborts_run {ε : Type} (e q w : String → Except ε Bool)
    (c : String → Bool) (ns₁ ns₂ : List String) (n : String)
    (ls : ClassLists) (err : ε)
    (h₁ : classifyAllE e q w c ns₁ = .ok ls)
    (h₂ : classifyNameE e q w c n = .error err) :
    classifyAllE e q w c (ns₁ ++ n :: ns₂) = .error err := by
  induction ns₁ generalizing ls with
  | nil =>
    simp [classifyAllE, h₂]
  | cons m rest ih =>
    rw [List.cons_append]
    simp only [classifyAllE] at h₁ ⊢
    cases hm : classifyNameE e q w c m with
    | error errm => simp [hm] at h₁
    | ok d =>
      simp only [hm] at h₁ ⊢
      cases hr : classifyAllE e q w c rest with
      | error errr => simp [hr] at h₁
      | ok ls' =>
        simp [ih ls' hr]

theorem c3_exception_aborts_run_witness :
    classifyAllE
      (fun n => if n = "b.tex" then .error "IOError" else .ok true)
      (fun _ => .ok true) (fun _ => .ok true) (fun _ => true)
      (["a.tex"] ++ "b.tex" :: ["c.tex"]) = .error "IOError" :=
  c3_exception_aborts_run
    (fun n => if n = "b.tex" then .error "IOError" else .ok true)
    (fun _ => .ok true) (fun _ => .ok true) (fun _ => true)
    ["a.tex"] ["c.tex"] "b.tex"
    ⟨[], [], [], ["a.tex"]⟩ "IOError" rfl rfl

/-- Claim C2, counterexample: Local keep list `["a.tex"]`, remote name list
empty.  In bidirectional mode (`sync = true`) the deleted-files set is
empty, so no deletion is proposed and no prompt issued; in
single-direction mode (`sync = false`) the candidate `a.tex` IS
proposed.  Both halves of the claimed "if and only if bidirectional"
fail: the code's guard is `and not sync`, the exact opposite. -/
theorem c2_counterexample :
    deletedFilesRun1 ["a.tex"] [] true = [] ∧
    deletedFilesRun1 ["a.tex"] [] false = ["a.tex"] := by
  constructor <;> rfl

/-- Claim C2, amended: Deletion candidates are proposed, and the
three-way prompt issued, only in single-direction mode: in a
bidirectional sync (`sync = true`) both runs' deleted-files sets are
always empty and the prompt loop never fires, while in single-direction
mode (`sync = false`) each run proposes exactly the names present on
the destination side's mirror but absent from today's source set. -/
theorem c2_deletions_only_single_direction (keepList namelist : List String)
    (choice : String → DelChoice) :
    deletedFilesRun1 keepList namelist true = [] ∧
    deletedFilesRun2 keepList namelist true = [] ∧
    classifyDeleted choice (deletedFilesRun1 keepList namelist true) =
      ([], [], []) ∧
    deletedFilesRun1 keepList namelist false =
      keepList.filter (fun f => !namelist.contains f) ∧
    deletedFilesRun2 keepList namelist false =
      namelist.filter (fun f => !keepList.contains f) := by
  refine ⟨?_, ?_, ?_, ?_, ?_⟩ <;>
    simp [deletedFilesRun1, deletedFilesRun2, classifyDeleted]

/-- Claim C4, counterexample: Bidirectional invocation (no `-l`/`-r`
flags); the first direction-run fails with an execution error.  The
second direction-run never starts — `run2` is absent from the started
list whatever its would-be outcome — refuting the claim that it still
proceeds; the code also offers no stop-on-first-failure choice that
could explain the abort. -/
theorem c4_counterexample :
    (∀ run2 : Except String Unit,
      mainRuns false false (.error "boom") run2 = ([.run1], some "boom")) ∧
    mainRuns false false (.error "boom") (.ok ()) = ([.run1], some "boom") :=
  ⟨fun _ => rfl, rfl⟩

/-- Claim C4, amended: In a bidirectional invocation, an execution
failure in the first direction-run unconditionally aborts the whole
invocation: the propagated error ends `main` and the second
direction-run never starts (there is no caller option to choose
otherwise); only when the first run succeeds does the second run
start. -/
theorem c4_first_failure_stops_second (m : String)
    (run2 : Except String Unit) :
    mainRuns false false (.error m) run2 = ([.run1], some m) ∧
    (mainRuns false false (.ok ()) run2).1 = [.run1, .run2] := by
  constructor
  · rfl
  · cases run2 <;> rfl

theorem runGroup_all_ok {ε : Type} (cap : String → Except ε Unit)
    (mk : String → Op) (msg : String) (l : List String)
    (h : ∀ n ∈ l, cap n = .ok ()) :
    runGroup cap mk msg l = (l.map mk, none) := by
  induction l with
  | nil => rfl
  | cons n rest ih =>
    have hn : cap n = .ok () := h n (List.mem_cons_self n rest)
    simp only [runGroup, hn, ih (fun m hm => h m (List.mem_cons_of_mem n hm)),
      List.map]

/-- Claim C6: When every capability call succeeds, the execution phase
performs the actionable decisions exactly in group order — NEW files
first, then RESTORE via `create_file_at_from`, then UPDATE, then
DELETE — and within each group in the insertion order of the plan's
lists, with no raised error. -/
theorem c6_execution_order {ε : Type} (create_file_at_to delete_file_at_to
      create_file_at_from : String → Except ε Unit)
    (from_name to_name : String) (ls : ClassLists)
    (delete_list restore_list : List String)
    (h₁ : ∀ n ∈ ls.newly_add_list, create_file_at_to n = .ok ())
    (h₂ : ∀ n ∈ restore_list, create_file_at_from n = .ok ())
    (h₃ : ∀ n ∈ ls.update_list, create_file_at_to n = .ok ())
    (h₄ : ∀ n ∈ delete_list, delete_file_at_to n = .ok ()) :
    execPlan create_file_at_to delete_file_at_to create_file_at_from
        from_name to_name ls delete_list restore_list =
      (ls.newly_add_list.map Op.createAtTo ++
       restore_list.map Op.createAtFrom ++
       ls.update_list.map Op.createAtTo ++
       delete_list.map Op.deleteAtTo, none) := by
  unfold execPlan
  rw [runGroup_all_ok create_file_at_to Op.createAtTo _ _ h₁,
    runGroup_all_ok create_file_at_from Op.createAtFrom _ _ h₂,
    runGroup_all_ok create_file_at_to Op.createAtTo _ _ h₃,
    runGroup_all_ok delete_file_at_to Op.deleteAtTo _ _ h₄]

theorem c6_execution_order_witness :
    execPlan (fun _ => (Except.ok () : Except Unit Unit)) (fun _ => .ok ())
        (fun _ => .ok ()) "remote" "local"
        ⟨["n.tex"], ["u.tex"], [], []⟩ ["d.tex"] ["r.tex"] =
      ([Op.createAtTo "n.tex", Op.createAtFrom "r.tex",
        Op.createAtTo "u.tex", Op.deleteAtTo "d.tex"], none) :=
  c6_execution_order (fun _ => .ok ()) (fun _ => .ok ()) (fun _ => .ok ())
    "remote" "local" ⟨["n.tex"], ["u.tex"], [], []⟩ ["d.tex"] ["r.tex"]
    (fun _ _ => rfl) (fun _ _ => rfl) (fun _ _ => rfl) (fun _ _ => rfl)

/-- Claim C5, code-bug evaluation: A failing deletion: the plan's only
actionable decision is deleting `a.tex` on the local side, the delete
capability raises, one NEW file `ok.tex` was already created before the
DELETE group ran.  The direction-run aborts, the already-executed
creation is kept (not rolled back), and the raised message names the
direction — but, because olsync.py line 329 reuses the creation text, it
reads "creating new file(s)" instead of naming the deletion group. -/
theorem c5_delete_error_message :
    execPlan (fun _ => (Except.ok () : Except Unit Unit)) (fun _ => .error ())
        (fun _ => .ok ()) "remote" "local"
        ⟨["ok.tex"], [], [], []⟩ ["a.tex"] [] =
      ([Op.createAtTo "ok.tex"],
       some "\n[ERROR] An error occurred while creating new file(s) on [local]") :=
  rfl

/-- Claim C8, counterexample: Input enumeration holding one directory
`subdir`, no `.olignore` file: the output is empty, not the input
unchanged (line 390 drops directories even when no rule filters
anything).  And with an existing but unreadable `.olignore` file the
function raises instead of returning the input (line 384's `open` is
not guarded by anything, only `os.path.isfile` was checked). -/
theorem c8_counterexample :
    olignore_keep_list [⟨["subdir"], true⟩] .missing (fun _ _ => false) =
      .ok [] ∧
    ([⟨["subdir"], true⟩] : List Entry).map renderPath = ["subdir"] ∧
    ([] : List String) ≠ ["subdir"] ∧
    olignore_keep_list [⟨["a.tex"], false⟩] .unreadable (fun _ _ => false) =
      .error () :=
  ⟨rfl, rfl, by decide, rfl⟩

/-- Claim C8, amended: The filter's output is always a subset of its
input (rendered as paths); when the rule list is empty or its source
file does not exist, it returns the input's non-directory entries
unchanged and in order; when the rules file exists but is unreadable,
the function raises instead of failing open. -/
theorem c8_filter_law (files : List Entry) (src : RulesSource)
    (matchp : String → String → Bool) :
    (∀ out, olignore_keep_list files src matchp = .ok out →
      out ⊆ files.map renderPath) ∧
    olignore_keep_list files .missing matchp =
      .ok ((files.filter (fun e => !e.isDir)).map renderPath) ∧
    olignore_keep_list files (.readable []) matchp =
      .ok ((files.filter (fun e => !e.isDir)).map renderPath) ∧
    olignore_keep_list files .unreadable matchp = .error () := by
  refine ⟨?_, rfl, ?_, rfl⟩
  · intro out hout
    cases src with
    | missing =>
      cases hout
      exact List.map_subset renderPath (List.filter_sublist _).subset
    | unreadable => cases hout
    | readable pats =>
      cases hout
      exact List.map_subset renderPath
        ((List.filter_sublist _).trans (List.filter_sublist _)).subset
  · simp [olignore_keep_list, keepPostprocess]

theorem c8_filter_law_witness :
    ["a.tex"] ⊆ ([⟨["a.tex"], false⟩, ⟨["b.tex"], false⟩] : List Entry).map
      renderPath :=
  (c8_filter_law [⟨["a.tex"], false⟩, ⟨["b.tex"], false⟩]
      (.readable ["b.tex"]) (fun s pat => s == pat)).1 ["a.tex"] rfl

theorem pythonGlob_hiddenFree (allEntries : List Entry) (e : Entry)
    (he : e ∈ pythonGlobStarStar allEntries) :
    e.comps.all (fun s => !(hiddenComp s)) = true := by
  rw [pythonGlobStarStar, List.mem_filter] at he
  simpa [List.all_eq_true, List.any_eq_true] using he.2

theorem keepPostprocess_mem (keep : List Entry) (p : String)
    (hp : p ∈ keepPostprocess keep) :
    ∃ e, e ∈ keep ∧ p = renderPath e ∧ e.isDir = false := by
  rw [keepPostprocess] at hp
  obtain ⟨e, he, hr⟩ := List.mem_map.mp hp
  rw [List.mem_filter] at he
  exact ⟨e, he.1, hr.symm, by simpa using he.2⟩

/-- Claim C10, counterexample: The local tree holds only the hidden file
`.hidden`, which glob omits, so the keep list is empty; the remote name
list still holds `.hidden`.  In local-only mode (`sync = false`) the
second run's deleted-files list is exactly `[.hidden]`: a hidden file
appears as a deletion candidate, refuting "hidden files never appear as
deletion candidates". -/
theorem c10_counterexample :
    olignore_keep_list (pythonGlobStarStar [⟨[".hidden"], false⟩]) .missing
      (fun _ _ => false) = .ok [] ∧
    deletedFilesRun2 [] [".hidden"] false = [".hidden"] ∧
    hiddenComp ".hidden" = true :=
  ⟨rfl, rfl, rfl⟩

/-- Claim C10, amended: Every path in the keep list computed over the
glob enumeration is the rendering of a non-directory entry none of
whose components begins with a dot (glob omits hidden entries and the
ignore rules only remove further paths), so hidden local files are
never uploaded — the local→remote source enumeration is the keep list —
and never appear among the remote→local run's deletion candidates,
which are drawn from the keep list; hidden files on the remote side
can, however, still be proposed for deletion by the local→remote run. -/
theorem c10_keep_list_hidden_free (allEntries : List Entry)
    (src : RulesSource) (matchp : String → String → Bool)
    (out : List String)
    (h : olignore_keep_list (pythonGlobStarStar allEntries) src matchp =
      .ok out) :
    (∀ p ∈ out, ∃ e, e ∈ pythonGlobStarStar allEntries ∧ p = renderPath e ∧
      e.isDir = false ∧ e.comps.all (fun s => !(hiddenComp s)) = true) ∧
    (∀ namelist sync p, p ∈ deletedFilesRun1 out namelist sync → p ∈ out) := by
  constructor
  · intro p hp
    have hpost : ∃ e, e ∈ pythonGlobStarStar allEntries ∧ p = renderPath e ∧
        e.isDir = false := by
      cases src with
      | missing =>
        cases h
        exact keepPostprocess_mem _ p hp
      | unreadable => cases h
      | readable pats =>
        cases h
        obtain ⟨e, he, hr, hd⟩ := keepPostprocess_mem _ p hp
        exact ⟨e, (List.filter_sublist _).subset he, hr, hd⟩
    obtain ⟨e, he, hr, hd⟩ := hpost
    exact ⟨e, he, hr, hd, pythonGlob_hiddenFree allEntries e he⟩
  · intro namelist sync p hp
    exact (List.filter_sublist _).subset hp

theorem c10_keep_list_hidden_free_witness :
    ∃ e, e ∈ pythonGlobStarStar [⟨[".hidden"], false⟩, ⟨["a.tex"], false⟩] ∧
      "a.tex" = renderPath e ∧ e.isDir = false ∧
      e.comps.all (fun s => !(hiddenComp s)) = true :=
  (c10_keep_list_hidden_free [⟨[".hidden"], false⟩, ⟨["a.tex"], false⟩]
      .missing (fun _ _ => false) ["a.tex"] rfl).1 "a.tex"
    (List.mem_singleton.mpr rfl)

/-- Claim C9: Both injected `source_is_newer` capabilities compare the
remote project's last-modification timestamp with the local file's
modification time by a strict `>` in the appropriate orientation, so on
equal timestamps neither side counts as newer and the classification of
an existing, content-unequal file falls through to the human prompt
(UPDATE on accept, SKIPPED on decline) rather than auto-updating. -/
theorem c9_strict_timestamp_comparison (a b t : ℚ) (e q c : String → Bool)
    (n : String) (he : e n = true) (hq : q n = false) :
    (from_newer_remote a b = true ↔ b < a) ∧
    (from_newer_local a b = true ↔ b < a) ∧
    from_newer_remote t t = false ∧
    from_newer_local t t = false ∧
    (classifyName e q (fun _ => from_newer_remote t t) c n).1 =
      (if c n then .update else .skipped) ∧
    (classifyName e q (fun _ => from_newer_local t t) c n).1 =
      (if c n then .update else .skipped) := by
  have hrt : from_newer_remote t t = false := by
    simp [from_newer_remote]
  have hlt : from_newer_local t t = false := by
    simp [from_newer_local]
  refine ⟨?_, ?_, hrt, hlt, ?_, ?_⟩
  · simp [from_newer_remote, GT.gt]
  · simp [from_newer_local, GT.gt]
  · unfold classifyName
    cases hc : c n <;> simp [he, hq, hrt, hc]
  · unfold classifyName
    cases hc : c n <;> simp [he, hq, hlt, hc]

theorem c9_strict_timestamp_comparison_witness :
    from_newer_remote 5 5 = false ∧
    (classifyName (fun _ => true) (fun _ => false)
        (fun _ => from_newer_remote 5 5) (fun _ => false) "a.tex").1 =
      Decision.skipped := by
  have h := c9_strict_timestamp_comparison 2 1 5 (fun _ => true)
    (fun _ => false) (fun _ => false) "a.tex" rfl rfl
  exact ⟨h.2.2.1, h.2.2.2.2.1.trans rfl⟩
